import Mathlib

/-!
Verification of the reactive derived-state core of the contractor-crew
dashboard: the record store (src/store/useWorkspaceStore.ts) and the
derivation engine (src/components/AgentDashboard.tsx).

Numbers are modelled with exact rationals; JavaScript string ids are
Lean Strings.  The random-unique-id generator (crypto.randomUUID) and the
calendar library (date-fns) are external collaborators: the id generator is
a parameter `gen : Nat → String` consumed via a per-store counter, the seed
date strings are a parameter `SeedDates`, and `daysRemaining` (computed by
differenceInDays in the source) is an integer parameter of the risk
derivation.
-/

namespace Dashboard

/-- LabourStatus enum from src/types/index.ts. -/
inductive LabourStatus where
  | present
  | absent
  | leave
  | standby
deriving DecidableEq, Repr

/-- PaymentCategory enum from src/types/index.ts. -/
inductive PaymentCategory where
  | advance
  | material
  | bonus
  | deduction
deriving DecidableEq, Repr

/-- Worker record from src/types/index.ts. -/
structure Worker where
  id : String
  name : String
  trade : String
  dailyRate : ℚ
  status : LabourStatus
  phone : Option String
  contractorId : String
deriving DecidableEq, Repr

/-- Contractor record from src/types/index.ts. -/
structure Contractor where
  id : String
  name : String
  company : String
  scope : String
  budget : ℚ
  startDate : String
  endDate : String
  crewSizeTarget : ℚ
  notes : Option String
deriving DecidableEq, Repr

/-- AttendanceRecord from src/types/index.ts. -/
structure AttendanceRecord where
  id : String
  workerId : String
  date : String
  hoursWorked : ℚ
  presence : LabourStatus
  remarks : Option String
  site : String
deriving DecidableEq, Repr

/-- Payment record from src/types/index.ts. -/
structure Payment where
  id : String
  workerId : String
  amount : ℚ
  date : String
  category : PaymentCategory
  note : Option String
deriving DecidableEq, Repr

/-- Caller-supplied part of a worker: `Omit<Worker, "id">`. -/
structure WorkerInput where
  name : String
  trade : String
  dailyRate : ℚ
  status : LabourStatus
  phone : Option String
  contractorId : String
deriving DecidableEq, Repr

/-- Caller-supplied part of an attendance record: `Omit<AttendanceRecord, "id">`. -/
structure AttendanceInput where
  workerId : String
  date : String
  hoursWorked : ℚ
  presence : LabourStatus
  remarks : Option String
  site : String
deriving DecidableEq, Repr

/-- Caller-supplied part of a payment: `Omit<Payment, "id">`. -/
structure PaymentInput where
  workerId : String
  amount : ℚ
  date : String
  category : PaymentCategory
  note : Option String
deriving DecidableEq, Repr

/-- Attaches the synthesized id to a worker input. -/
def WorkerInput.withId (w : WorkerInput) (id : String) : Worker :=
  { id := id, name := w.name, trade := w.trade, dailyRate := w.dailyRate,
    status := w.status, phone := w.phone, contractorId := w.contractorId }

/-- Attaches the synthesized id to an attendance input. -/
def AttendanceInput.withId (a : AttendanceInput) (id : String) : AttendanceRecord :=
  { id := id, workerId := a.workerId, date := a.date, hoursWorked := a.hoursWorked,
    presence := a.presence, remarks := a.remarks, site := a.site }

/-- Attaches the synthesized id to a payment input. -/
def PaymentInput.withId (p : PaymentInput) (id : String) : Payment :=
  { id := id, workerId := p.workerId, amount := p.amount, date := p.date,
    category := p.category, note := p.note }

/-- The store state of useWorkspaceStore: the four collections plus the
selection cursor.  `nextFresh` is the counter consumed by the injected
unique-id generator standing in for crypto.randomUUID. -/
structure StoreState where
  contractors : List Contractor
  workers : List Worker
  attendance : List AttendanceRecord
  payments : List Payment
  selectedContractorId : Option String
  nextFresh : Nat
deriving DecidableEq, Repr

/-- The date strings baked into the seed data; in the source they are
formatted from `new Date()` by the external date library. -/
structure SeedDates where
  c1Start : String
  c1End : String
  c2Start : String
  c2End : String
  todayStr : String
  p1Date : String
  p2Date : String
deriving DecidableEq, Repr

/-- First seed contractor from src/store/useWorkspaceStore.ts. -/
def contractorOne (d : SeedDates) : Contractor :=
  { id := "c1", name := "Skyline Mechanical", company := "Skyline Mechanical",
    scope := "High-rise plumbing installation & QA", budget := 180000,
    startDate := d.c1Start, endDate := d.c1End, crewSizeTarget := 12,
    notes := some "Key milestone: pressure test every Wednesday." }

/-- Second seed contractor from src/store/useWorkspaceStore.ts. -/
def contractorTwo (d : SeedDates) : Contractor :=
  { id := "c2", name := "BlueWave Piping", company := "BlueWave Piping",
    scope := "Basement drainage rerouting", budget := 95000,
    startDate := d.c2Start, endDate := d.c2End, crewSizeTarget := 8,
    notes := some "Coordinate with civil to avoid conduit clashes." }

/-- initialContractors from src/store/useWorkspaceStore.ts. -/
def initialContractors (d : SeedDates) : List Contractor :=
  [contractorOne d, contractorTwo d]

/-- initialWorkers from src/store/useWorkspaceStore.ts. -/
def initialWorkers : List Worker :=
  [ { id := "w1", name := "Priya Sharma", trade := "Pipe Fitter", dailyRate := 4200,
      status := .present, phone := some "+91 98765 43210", contractorId := "c1" },
    { id := "w2", name := "Akash Patel", trade := "Welder", dailyRate := 4600,
      status := .present, phone := some "+91 93210 76543", contractorId := "c1" },
    { id := "w3", name := "Michael Lopez", trade := "Foreman", dailyRate := 5800,
      status := .leave, phone := some "+1 415-555-2010", contractorId := "c2" },
    { id := "w4", name := "Lily Chen", trade := "Assistant", dailyRate := 3600,
      status := .standby, phone := none, contractorId := "c2" } ]

/-- initialAttendance from src/store/useWorkspaceStore.ts. -/
def initialAttendance (d : SeedDates) : List AttendanceRecord :=
  [ { id := "a1", workerId := "w1", date := d.todayStr, hoursWorked := 8,
      presence := .present, remarks := some "Stack 12 inspection passed",
      site := "Tower B level 21" },
    { id := "a2", workerId := "w2", date := d.todayStr, hoursWorked := 15/2,
      presence := .present, remarks := some "Pressure test follow-up",
      site := "Tower B roof" },
    { id := "a3", workerId := "w3", date := d.todayStr, hoursWorked := 0,
      presence := .leave, remarks := some "Family emergency",
      site := "Basement shaft" } ]

/-- initialPayments from src/store/useWorkspaceStore.ts. -/
def initialPayments (d : SeedDates) : List Payment :=
  [ { id := "p1", workerId := "w1", amount := 12000, date := d.p1Date,
      category := .advance, note := some "Rotation bonus" },
    { id := "p2", workerId := "w2", amount := 18000, date := d.p2Date,
      category := .material, note := some "Gas cylinder procurement" } ]

/-- The seed state: `selectedContractorId: initialContractors[0]?.id ?? null`. -/
def seedState (d : SeedDates) : StoreState :=
  { contractors := initialContractors d
    workers := initialWorkers
    attendance := initialAttendance d
    payments := initialPayments d
    selectedContractorId := some "c1"
    nextFresh := 0 }

/-- Updates the first element satisfying `p` (the immer `find` + in-place
mutation pattern of the source mutates exactly the first match). -/
def updateFirst (p : α → Bool) (f : α → α) : List α → List α
  | [] => []
  | x :: xs => if p x then f x :: xs else x :: updateFirst p f xs

/-- setSelectedContractor: sets the cursor unconditionally, no existence
check. -/
def setSelectedContractor (id : Option String) (s : StoreState) : StoreState :=
  { s with selectedContractorId := id }

/-- addAttendance: synthesizes a fresh id and unshifts (prepends). -/
def addAttendance (gen : Nat → String) (input : AttendanceInput) (s : StoreState) :
    StoreState :=
  { s with attendance := input.withId (gen s.nextFresh) :: s.attendance, nextFresh := s.nextFresh + 1 }

/-- updateAttendancePresence: finds the record by id and mutates its
`presence` field; silent no-op when absent. -/
def updateAttendancePresence (id : String) (presence : LabourStatus)
    (s : StoreState) : StoreState :=
  { s with attendance := updateFirst (fun r => r.id == id) (fun r => { r with presence := presence }) s.attendance }

/-- addPayment: synthesizes a fresh id and unshifts (prepends). -/
def addPayment (gen : Nat → String) (input : PaymentInput) (s : StoreState) :
    StoreState :=
  { s with payments := input.withId (gen s.nextFresh) :: s.payments, nextFresh := s.nextFresh + 1 }

/-- updateWorkerStatus: finds the worker by id and mutates its `status`
field; silent no-op when absent. -/
def updateWorkerStatus (workerId : String) (status : LabourStatus)
    (s : StoreState) : StoreState :=
  { s with workers := updateFirst (fun w => w.id == workerId) (fun w => { w with status := status }) s.workers }

/-- addWorker: synthesizes a fresh id and pushes (appends). -/
def addWorker (gen : Nat → String) (w : WorkerInput) (s : StoreState) : StoreState :=
  { s with workers := s.workers ++ [w.withId (gen s.nextFresh)], nextFresh := s.nextFresh + 1 }

/-- One mutation call on the store. -/
inductive Op where
  | setSelectedContractor (id : Option String)
  | addAttendance (input : AttendanceInput)
  | updateAttendancePresence (id : String) (presence : LabourStatus)
  | addPayment (input : PaymentInput)
  | updateWorkerStatus (workerId : String) (status : LabourStatus)
  | addWorker (w : WorkerInput)
deriving DecidableEq, Repr

/-- Applies one mutation. -/
def applyOp (gen : Nat → String) (s : StoreState) : Op → StoreState
  | .setSelectedContractor id => Dashboard.setSelectedContractor id s
  | .addAttendance input => Dashboard.addAttendance gen input s
  | .updateAttendancePresence id presence =>
      Dashboard.updateAttendancePresence id presence s
  | .addPayment input => Dashboard.addPayment gen input s
  | .updateWorkerStatus workerId status =>
      Dashboard.updateWorkerStatus workerId status s
  | .addWorker w => Dashboard.addWorker gen w s

/-- Runs a sequence of mutation calls. -/
def runOps (gen : Nat → String) (s : StoreState) : List Op → StoreState
  | [] => s
  | op :: ops => runOps gen (applyOp gen s op) ops

/-- A state is reachable when some sequence of mutation calls produces it
from the seed state. -/
def Reachable (gen : Nat → String) (d : SeedDates) (s : StoreState) : Prop :=
  ∃ ops : List Op, s = runOps gen (seedState d) ops

/-! ## Derivation engine (src/components/AgentDashboard.tsx) -/

/-- dailyPresenceWeight policy constant (lines 58-63). -/
def dailyPresenceWeight : LabourStatus → ℚ
  | .present => 1
  | .standby => 1/2
  | .leave => 0
  | .absent => 0

/-- Resolution of the cursor: `contractors.find((item) => item.id === selectedContractorId) ?? null`. -/
def selectedContractor (s : StoreState) : Option Contractor :=
  match s.selectedContractorId with
  | none => none
  | some sid => s.contractors.find? (fun c => c.id == sid)

/-- Crew resolution: workers filtered to the selected contractor, or all
workers when none resolves. -/
def crew (s : StoreState) : List Worker :=
  s.workers.filter (fun w =>
    match selectedContractor s with
    | some c => w.contractorId == c.id
    | none => true)

/-- latestAttendance: attendance records whose workerId is in the crew. -/
def latestAttendance (s : StoreState) : List AttendanceRecord :=
  s.attendance.filter (fun r => (crew s).any (fun w => w.id == r.workerId))

/-- latestPayments: payments whose workerId is in the crew. -/
def latestPayments (s : StoreState) : List Payment :=
  s.payments.filter (fun p => (crew s).any (fun w => w.id == p.workerId))

/-- Payroll projection: `crew.reduce((total, worker) => total + worker.dailyRate * weight, 0)`. -/
def dailySpend (s : StoreState) : ℚ :=
  (crew s).foldl (fun total w => total + w.dailyRate * dailyPresenceWeight w.status) 0

/-- Payment total: `latestPayments.reduce((total, payment) => total + payment.amount, 0)`. -/
def totalPayments (s : StoreState) : ℚ :=
  (latestPayments s).foldl (fun total p => total + p.amount) 0

/-- Count of present crew: `crew.filter((worker) => worker.status === "present").length`. -/
def presentCount (s : StoreState) : Nat :=
  ((crew s).filter (fun w => w.status == LabourStatus.present)).length

/-- Crew-health divisor: `selectedContractor?.crewSizeTarget ?? crew.length`. -/
def targetCrew (s : StoreState) : ℚ :=
  match selectedContractor s with
  | some c => c.crewSizeTarget
  | none => ((crew s).length : ℚ)

/-- JavaScript Math.round on an exact rational: floor of x + 1/2. -/
def jsRound (x : ℚ) : ℤ :=
  ⌊x + 1/2⌋

/-- Crew health: `crew.length ? Math.round((presentCount / targetCrew) * 100) : 0`. -/
def crewHealth (s : StoreState) : ℤ :=
  if (crew s).length ≠ 0 then
    jsRound ((presentCount s : ℚ) / targetCrew s * 100)
  else 0

/-- The short-crew risk message naming the leave count (pluralized). -/
def shortCrewMsg (n : Nat) : String :=
  "Crew short by " ++ (toString n ++ (" specialist" ++
    ((if n > 1 then "s" else "") ++ " today.")))

/-- The budget-exposure risk message. -/
def budgetMsg : String := "Budget exposure: tighten purchase approvals."

/-- The attendance follow-up risk message. -/
def attendanceMsg : String := "Attendance drops flagged for supervisor follow-up."

/-- Crew members on leave: `crew.filter((worker) => worker.status === "leave")`. -/
def leaveHeads (s : StoreState) : List Worker :=
  (crew s).filter (fun w => w.status == LabourStatus.leave)

/-- keyRisks (AgentDashboard lines 154-191).  `daysRemaining` is computed in
the source by the external date library from the selected contractor's
endDate and the current clock, so it is a parameter here. -/
def keyRisks (s : StoreState) (daysRemaining : ℤ) : List String :=
  (if (leaveHeads s).length ≥ 2 then [shortCrewMsg (leaveHeads s).length] else [])
  ++
  (let budgetBurnRate :=
    dailySpend s * (if (selectedContractor s).isSome then 6 else 1)
   if (selectedContractor s).isSome ∧ budgetBurnRate ≠ 0 then
     if daysRemaining > 0 then
       (match selectedContractor s with
        | some c =>
            if budgetBurnRate * ((daysRemaining : ℚ) / 6) > c.budget * (2/5) then
              [budgetMsg]
            else []
        | none => [])
     else []
   else [])
  ++
  (if ((latestAttendance s).filter (fun r => r.presence == LabourStatus.absent)).length
      > 0 then [attendanceMsg] else [])

end Dashboard

namespace Dashboard

/-! ## Concrete instantiations of the external collaborators -/

/-- A concrete instantiation of the seed date strings (the source formats
them from the current clock). -/
def defaultDates : SeedDates :=
  { c1Start := "2026-10-01", c1End := "2026-11-30", c2Start := "2026-10-05",
    c2End := "2026-11-20", todayStr := "2026-10-11", p1Date := "2026-10-09",
    p2Date := "2026-10-04" }

/-- A concrete unique-id generator: the n-th fresh id is a string of n+1
copies of the letter u, so distinct calls yield distinct ids and no fresh id
collides with a seed id. -/
def freshId (n : Nat) : String :=
  String.mk (List.replicate (n + 1) 'u')

theorem freshId_head (n : Nat) : (freshId n).data.head? = some 'u' := rfl

theorem freshId_injective : Function.Injective freshId := by
  intro a b h
  have hdata : List.replicate (a + 1) 'u' = List.replicate (b + 1) 'u' :=
    congrArg String.data h
  have hlen := congrArg List.length hdata
  simp only [List.length_replicate] at hlen
  omega

theorem freshId_ne (n : Nat) (s : String) (h : s.data.head? ≠ some 'u') :
    freshId n ≠ s := by
  intro he
  exact h (he ▸ freshId_head n)

/-! ## List helper lemmas -/

theorem foldl_add_sum {α : Type} (f : α → ℚ) (l : List α) (a : ℚ) :
    l.foldl (fun t x => t + f x) a = a + (l.map f).sum := by
  induction l generalizing a with
  | nil => simp
  | cons x xs ih => simp [List.foldl_cons, ih, add_assoc]

theorem updateFirst_of_not_mem {α : Type} (p : α → Bool) (f : α → α)
    (l : List α) (h : ∀ x ∈ l, p x = false) : updateFirst p f l = l := by
  induction l with
  | nil => rfl
  | cons x xs ih =>
      simp only [updateFirst, h x (List.mem_cons_self x xs), Bool.false_eq_true,
        if_false, List.cons.injEq, true_and]
      exact ih (fun y hy => h y (List.mem_cons_of_mem x hy))

theorem map_updateFirst {α β : Type} (g : α → β) (p : α → Bool) (f : α → α)
    (hf : ∀ x, g (f x) = g x) (l : List α) :
    (updateFirst p f l).map g = l.map g := by
  induction l with
  | nil => rfl
  | cons x xs ih =>
      by_cases hp : p x <;> simp [updateFirst, hp, hf, ih]

/-! ## Store invariants -/

theorem contractors_applyOp (gen : Nat → String) (s : StoreState) (op : Op) :
    (applyOp gen s op).contractors = s.contractors := by
  cases op <;> rfl

theorem contractors_runOps (gen : Nat → String) (s : StoreState) (ops : List Op) :
    (runOps gen s ops).contractors = s.contractors := by
  induction ops generalizing s with
  | nil => rfl
  | cons op ops ih => rw [runOps, ih, contractors_applyOp]

theorem contractors_reachable (gen : Nat → String) (d : SeedDates) (s : StoreState)
    (h : Reachable gen d s) : s.contractors = initialContractors d := by
  obtain ⟨ops, rfl⟩ := h
  exact contractors_runOps gen (seedState d) ops

/-- The budget of any contractor that the selection resolves to, in any
reachable state, is one of the two seed budgets. -/
theorem budget_of_reachable (gen : Nat → String) (d : SeedDates) (s : StoreState)
    (h : Reachable gen d s) (c : Contractor) (hc : selectedContractor s = some c) :
    c.budget = 180000 ∨ c.budget = 95000 := by
  have hcs := contractors_reachable gen d s h
  unfold selectedContractor at hc
  cases hsel : s.selectedContractorId with
  | none => rw [hsel] at hc; exact absurd hc (by simp)
  | some sid =>
      rw [hsel] at hc
      have hmem : c ∈ s.contractors := List.mem_of_find?_eq_some hc
      rw [hcs] at hmem
      simp only [initialContractors, List.mem_cons, List.not_mem_nil, or_false] at hmem
      rcases hmem with h1 | h1 <;> rw [h1] <;> [left; right] <;> rfl

/-- The crew-size target of any contractor that the selection resolves to,
in any reachable state, is one of the two seed targets. -/
theorem crewSizeTarget_of_reachable (gen : Nat → String) (d : SeedDates)
    (s : StoreState) (h : Reachable gen d s) (c : Contractor)
    (hc : selectedContractor s = some c) :
    c.crewSizeTarget = 12 ∨ c.crewSizeTarget = 8 := by
  have hcs := contractors_reachable gen d s h
  unfold selectedContractor at hc
  cases hsel : s.selectedContractorId with
  | none => rw [hsel] at hc; exact absurd hc (by simp)
  | some sid =>
      rw [hsel] at hc
      have hmem : c ∈ s.contractors := List.mem_of_find?_eq_some hc
      rw [hcs] at hmem
      simp only [initialContractors, List.mem_cons, List.not_mem_nil, or_false] at hmem
      rcases hmem with h1 | h1 <;> rw [h1] <;> [left; right] <;> rfl

end Dashboard

namespace Dashboard

/-! ## Id bookkeeping for the uniqueness invariant -/

/-- All ids currently present across the four collections. -/
def allIds (s : StoreState) : List String :=
  s.contractors.map (fun c => c.id) ++ s.workers.map (fun w => w.id)
    ++ s.attendance.map (fun a => a.id) ++ s.payments.map (fun p => p.id)

/-- The ids baked into the seed data. -/
def seedIds : List String :=
  ["c1", "c2", "w1", "w2", "w3", "w4", "a1", "a2", "a3", "p1", "p2"]

theorem allIds_seedState (d : SeedDates) : allIds (seedState d) = seedIds := rfl

theorem freshId_not_seed (n : Nat) : freshId n ∉ seedIds := by
  intro h
  simp only [seedIds, List.mem_cons, List.not_mem_nil, or_false] at h
  rcases h with h | h | h | h | h | h | h | h | h | h | h <;>
    exact freshId_ne _ _ (by decide) h

theorem allIds_setSelectedContractor (id : Option String) (s : StoreState) :
    allIds (setSelectedContractor id s) = allIds s := rfl

theorem allIds_updateAttendancePresence (id : String) (pr : LabourStatus)
    (s : StoreState) : allIds (updateAttendancePresence id pr s) = allIds s := by
  unfold allIds updateAttendancePresence
  rw [map_updateFirst]
  intro x
  rfl

theorem allIds_updateWorkerStatus (id : String) (st : LabourStatus)
    (s : StoreState) : allIds (updateWorkerStatus id st s) = allIds s := by
  unfold allIds updateWorkerStatus
  rw [map_updateFirst]
  intro x
  rfl

theorem allIds_addAttendance (gen : Nat → String) (input : AttendanceInput)
    (s : StoreState) :
    List.Perm (allIds (addAttendance gen input s)) (gen s.nextFresh :: allIds s) := by
  unfold allIds addAttendance
  simp only [List.map_cons]
  have h1 : List.Perm
      (s.contractors.map (fun c => c.id) ++ s.workers.map (fun w => w.id)
        ++ ((input.withId (gen s.nextFresh)).id :: s.attendance.map (fun a => a.id)))
      ((input.withId (gen s.nextFresh)).id :: (s.contractors.map (fun c => c.id)
        ++ s.workers.map (fun w => w.id) ++ s.attendance.map (fun a => a.id))) :=
    List.perm_middle
  exact List.Perm.append_right _ h1

theorem allIds_addPayment (gen : Nat → String) (input : PaymentInput)
    (s : StoreState) :
    List.Perm (allIds (addPayment gen input s)) (gen s.nextFresh :: allIds s) := by
  unfold allIds addPayment
  simp only [List.map_cons]
  exact List.perm_middle

theorem allIds_addWorker (gen : Nat → String) (w : WorkerInput) (s : StoreState) :
    List.Perm (allIds (addWorker gen w s)) (gen s.nextFresh :: allIds s) := by
  unfold allIds addWorker
  simp only [List.map_append, List.map_cons, List.map_nil]
  have h1 : List.Perm
      (s.contractors.map (fun c => c.id)
        ++ (s.workers.map (fun x => x.id) ++ [(w.withId (gen s.nextFresh)).id]))
      ((w.withId (gen s.nextFresh)).id :: (s.contractors.map (fun c => c.id)
        ++ s.workers.map (fun x => x.id))) := by
    rw [← List.append_assoc]
    exact List.perm_append_singleton _ _
  have h2 := List.Perm.append_right (s.attendance.map (fun a => a.id)) h1
  have h3 := List.Perm.append_right (s.payments.map (fun p => p.id)) h2
  simpa [List.append_assoc] using h3

end Dashboard

namespace Dashboard

/-- The id bookkeeping invariant: no duplicate id anywhere, and every id is
either a seed id or was produced by an already-consumed generator index. -/
def IdInv (gen : Nat → String) (s : StoreState) : Prop :=
  (allIds s).Nodup ∧ ∀ i ∈ allIds s, i ∈ seedIds ∨ ∃ k, k < s.nextFresh ∧ i = gen k

theorem nextFresh_applyOp_le (gen : Nat → String) (s : StoreState) (op : Op) :
    s.nextFresh ≤ (applyOp gen s op).nextFresh := by
  cases op <;> simp [applyOp, setSelectedContractor, addAttendance,
    updateAttendancePresence, addPayment, updateWorkerStatus, addWorker]

theorem idInv_applyOp (gen : Nat → String) (s : StoreState) (op : Op)
    (hinj : Function.Injective gen) (hfresh : ∀ n, gen n ∉ seedIds)
    (h : IdInv gen s) : IdInv gen (applyOp gen s op) := by
  obtain ⟨hnd, hsrc⟩ := h
  have hnew : gen s.nextFresh ∉ allIds s := by
    intro hmem
    rcases hsrc _ hmem with hseed | ⟨k, hk, hek⟩
    · exact hfresh _ hseed
    · have : k = s.nextFresh := hinj hek.symm
      omega
  have hstep : ∀ t : StoreState,
      List.Perm (allIds t) (gen s.nextFresh :: allIds s) →
      t.nextFresh = s.nextFresh + 1 → IdInv gen t := by
    intro t hperm hnf
    constructor
    · exact (List.Perm.nodup_iff hperm).mpr (List.nodup_cons.mpr ⟨hnew, hnd⟩)
    · intro i hi
      have : i ∈ gen s.nextFresh :: allIds s := (List.Perm.mem_iff hperm).mp hi
      rcases List.mem_cons.mp this with hg | hold
      · right; exact ⟨s.nextFresh, by omega, hg⟩
      · rcases hsrc _ hold with hseed | ⟨k, hk, hek⟩
        · left; exact hseed
        · right; exact ⟨k, by omega, hek⟩
  cases op with
  | setSelectedContractor id =>
      exact ⟨by rw [applyOp, allIds_setSelectedContractor]; exact hnd,
        by rw [applyOp, allIds_setSelectedContractor]; exact hsrc⟩
  | addAttendance input => exact hstep _ (allIds_addAttendance gen input s) rfl
  | updateAttendancePresence id pr =>
      exact ⟨by rw [applyOp, allIds_updateAttendancePresence]; exact hnd,
        by rw [applyOp, allIds_updateAttendancePresence]; exact hsrc⟩
  | addPayment input => exact hstep _ (allIds_addPayment gen input s) rfl
  | updateWorkerStatus id st =>
      exact ⟨by rw [applyOp, allIds_updateWorkerStatus]; exact hnd,
        by rw [applyOp, allIds_updateWorkerStatus]; exact hsrc⟩
  | addWorker w => exact hstep _ (allIds_addWorker gen w s) rfl

theorem idInv_runOps (gen : Nat → String) (s : StoreState) (ops : List Op)
    (hinj : Function.Injective gen) (hfresh : ∀ n, gen n ∉ seedIds)
    (h : IdInv gen s) : IdInv gen (runOps gen s ops) := by
  induction ops generalizing s with
  | nil => exact h
  | cons op ops ih => exact ih _ (idInv_applyOp gen s op hinj hfresh h)

theorem idInv_seedState (gen : Nat → String) (d : SeedDates) :
    IdInv gen (seedState d) := by
  constructor
  · rw [allIds_seedState]; decide
  · intro i hi
    left
    rw [allIds_seedState] at hi
    exact hi

end Dashboard

namespace Dashboard

/-! ## Risk-message disequalities and the keyRisks characterization -/

theorem shortCrewMsg_head (n : Nat) : (shortCrewMsg n).data.head? = some 'C' := by
  unfold shortCrewMsg
  rw [String.data_append]
  rfl

theorem shortCrewMsg_ne_budgetMsg (n : Nat) : shortCrewMsg n ≠ budgetMsg := by
  intro h
  have hh := shortCrewMsg_head n
  rw [h] at hh
  exact absurd hh (by decide)

theorem shortCrewMsg_ne_attendanceMsg (n : Nat) : shortCrewMsg n ≠ attendanceMsg := by
  intro h
  have hh := shortCrewMsg_head n
  rw [h] at hh
  exact absurd hh (by decide)

theorem budgetMsg_ne_attendanceMsg : budgetMsg ≠ attendanceMsg := by decide

/-- Membership characterization of the derived risk-flag list. -/
theorem mem_keyRisks (s : StoreState) (days : ℤ) (x : String) :
    x ∈ keyRisks s days ↔
      (2 ≤ (leaveHeads s).length ∧ x = shortCrewMsg (leaveHeads s).length)
      ∨ (∃ c, selectedContractor s = some c ∧ dailySpend s * 6 ≠ 0 ∧ 0 < days ∧
          dailySpend s * 6 * ((days : ℚ) / 6) > c.budget * (2 / 5) ∧ x = budgetMsg)
      ∨ (0 < ((latestAttendance s).filter
            (fun r => r.presence == LabourStatus.absent)).length
          ∧ x = attendanceMsg) := by
  unfold keyRisks
  cases hsel : selectedContractor s with
  | none =>
      simp only [hsel, Option.isSome_none, Bool.false_eq_true, false_and, if_false,
        List.append_nil, List.mem_append, List.mem_ite_nil_right,
        List.mem_singleton, ge_iff_le, gt_iff_lt]
      simp only [reduceCtorEq, false_and, exists_false, false_or]
  | some c =>
      simp only [hsel, Option.isSome_some, true_and, List.mem_append,
        List.mem_ite_nil_right, List.mem_singleton, ge_iff_le, gt_iff_lt,
        Option.some.injEq, if_true]
      simp only [exists_eq_left']
      rw [or_assoc]

/-! ## Crew resolution lemmas -/

theorem crew_of_none (s : StoreState) (h : selectedContractor s = none) :
    crew s = s.workers := by
  unfold crew
  rw [h]
  simp

theorem crew_of_some (s : StoreState) (c : Contractor)
    (h : selectedContractor s = some c) :
    crew s = s.workers.filter (fun w => w.contractorId == c.id) := by
  unfold crew
  rw [h]

theorem selectedContractor_eq_none (s : StoreState) (sid : String)
    (hsel : s.selectedContractorId = some sid)
    (h : ∀ c ∈ s.contractors, c.id ≠ sid) : selectedContractor s = none := by
  unfold selectedContractor
  rw [hsel]
  exact List.find?_eq_none.mpr (fun c hc => by simpa using h c hc)

/-! ## Concrete states used as test inputs -/

/-- The state reached by selecting an id that matches no contractor. -/
def unmatchedSelState : StoreState :=
  runOps freshId (seedState defaultDates) [Op.setSelectedContractor (some "zz")]

/-- A second copy of that state, dedicated to the selection-invariant claim. -/
def danglingSelState : StoreState :=
  runOps freshId (seedState defaultDates) [Op.setSelectedContractor (some "zz")]

/-- A state whose selected crew has exactly two members on leave. -/
def twoLeaveState : StoreState :=
  runOps freshId (seedState defaultDates)
    [Op.setSelectedContractor (some "c2"),
     Op.updateWorkerStatus "w4" LabourStatus.leave]

/-- A contractor with crew-size target 12, for the crew-health boundary
scenario of the specification. -/
def targetTwelveContractor : Contractor :=
  { id := "t1", name := "T", company := "T", scope := "T", budget := 100000,
    startDate := "2026-01-01", endDate := "2026-12-31", crewSizeTarget := 12,
    notes := none }

/-- A present worker of the crew-health boundary scenario. -/
def presentWorker (id : String) : Worker :=
  { id := id, name := id, trade := "T", dailyRate := 1000, status := .present,
    phone := none, contractorId := "t1" }

/-- A contractor with crew-size target 12 and a crew of exactly six present
workers: the crew-health boundary scenario of the specification. -/
def sixPresentState : StoreState :=
  { contractors := [targetTwelveContractor]
    workers :=
      [presentWorker "x1", presentWorker "x2", presentWorker "x3",
       presentWorker "x4", presentWorker "x5", presentWorker "x6"]
    attendance := []
    payments := []
    selectedContractorId := some "t1"
    nextFresh := 0 }

/-- The crew-health metric exactly as the specification words it:
round(presentCount / target × 100) for a non-empty crew and 0 otherwise,
with target the selected contractor crew-size target, or the crew size
when no contractor is selected. -/
def crewHealthSpec (s : StoreState) : ℤ :=
  if crew s = [] then 0
  else jsRound ((presentCount s : ℚ) /
    (match selectedContractor s with
     | some c => c.crewSizeTarget
     | none => ((crew s).length : ℚ)) * 100)

/-! ## Claim theorems -/

/-- C2 counterexample: in the reachable state whose selection cursor is the
unmatched id "zz", the crew is all four seed workers, not the (empty) set of
workers whose contractorId equals "zz" — so the claim that a non-null
selectedContractorId always filters the crew by that id is false. -/
theorem crew_resolution_counterexample :
    unmatchedSelState.selectedContractorId = some "zz"
    ∧ crew unmatchedSelState
        ≠ unmatchedSelState.workers.filter (fun w => w.contractorId == "zz")
    ∧ crew unmatchedSelState = unmatchedSelState.workers := by
  refine ⟨rfl, ?_, ?_⟩ <;> decide

/-- C2 (amended): if selectedContractorId is null, or is a non-null id that
matches no contractor, the crew is all workers; if it is the id of some
contractor in the collection, the crew is exactly the workers whose
contractorId equals it. -/
theorem crew_resolution_amended (s : StoreState) :
    (s.selectedContractorId = none → crew s = s.workers)
    ∧ (∀ sid, s.selectedContractorId = some sid →
        (∀ c ∈ s.contractors, c.id ≠ sid) → crew s = s.workers)
    ∧ (∀ sid, s.selectedContractorId = some sid →
        (∃ c ∈ s.contractors, c.id = sid) →
        crew s = s.workers.filter (fun w => w.contractorId == sid)) := by
  refine ⟨?_, ?_, ?_⟩
  · intro h
    apply crew_of_none
    unfold selectedContractor
    rw [h]
  · intro sid hsel h
    exact crew_of_none s (selectedContractor_eq_none s sid hsel h)
  · intro sid hsel h
    obtain ⟨c, hc, hcid⟩ := h
    cases hfind : s.contractors.find? (fun x => x.id == sid) with
    | none =>
        have := List.find?_eq_none.mp hfind c hc
        simp [hcid] at this
    | some cf =>
        have hsome : selectedContractor s = some cf := by
          unfold selectedContractor
          rw [hsel]
          exact hfind
        have hid : cf.id = sid := by
          have := List.find?_some hfind
          simpa using this
        rw [crew_of_some s cf hsome, hid]

/-- C2 witness: the amended statement applied to the unmatched-id state. -/
theorem crew_resolution_witness :
    crew unmatchedSelState = unmatchedSelState.workers :=
  (crew_resolution_amended unmatchedSelState).2.1 "zz" rfl (by decide)

/-- C3: the payroll projection is the sum over the crew of dailyRate times
the fixed presence weight (present 1, standby 0.5, leave 0, absent 0), and
is independent of the attendance log. -/
theorem dailySpend_payroll (s : StoreState) :
    dailySpend s
        = ((crew s).map (fun w => w.dailyRate * dailyPresenceWeight w.status)).sum
    ∧ (∀ att, dailySpend { s with attendance := att } = dailySpend s)
    ∧ dailyPresenceWeight .present = 1 ∧ dailyPresenceWeight .standby = 1/2
    ∧ dailyPresenceWeight .leave = 0 ∧ dailyPresenceWeight .absent = 0 := by
  refine ⟨?_, fun att => rfl, rfl, rfl, rfl, rfl⟩
  unfold dailySpend
  rw [foldl_add_sum]
  rw [zero_add]

/-- C4: the crew-health metric equals the specification formula (0 on an
empty crew, else the rounded present/target ratio with the contractor target
or the crew-size fallback), and evaluates to 50 for a crew-size target of 12
with exactly six present crew members. -/
theorem crewHealth_correct :
    (∀ s : StoreState, crewHealth s = crewHealthSpec s)
    ∧ crewHealth sixPresentState = 50 := by
  constructor
  · intro s
    unfold crewHealth crewHealthSpec targetCrew
    by_cases h : crew s = []
    · rw [if_pos h, if_neg (by simp [h])]
    · rw [if_neg h, if_pos (by simpa [List.length_eq_zero] using h)]
  · have e1 : (crew sixPresentState).length ≠ 0 := by decide
    unfold crewHealth
    rw [if_pos e1, show presentCount sixPresentState = 6 from by decide,
      show targetCrew sixPresentState = 12 from by decide]
    unfold jsRound
    norm_num

/-- C6: addAttendance and addPayment prepend the new record (with the
synthesized id) so the collection head is the newest record, addWorker
appends so the new worker is last, and previously present elements keep
their relative order. -/
theorem insertion_ordering (gen : Nat → String) (s : StoreState)
    (r1 r2 : AttendanceInput) (w1 w2 : WorkerInput) (p : PaymentInput) :
    (addAttendance gen r2 (addAttendance gen r1 s)).attendance
        = r2.withId (gen (s.nextFresh + 1)) :: r1.withId (gen s.nextFresh)
            :: s.attendance
    ∧ (addAttendance gen r2 (addAttendance gen r1 s)).attendance.head?
        = some (r2.withId (gen (s.nextFresh + 1)))
    ∧ (addPayment gen p s).payments = p.withId (gen s.nextFresh) :: s.payments
    ∧ (addWorker gen w2 (addWorker gen w1 s)).workers
        = s.workers ++ [w1.withId (gen s.nextFresh), w2.withId (gen (s.nextFresh + 1))]
    ∧ (addWorker gen w2 (addWorker gen w1 s)).workers.getLast?
        = some (w2.withId (gen (s.nextFresh + 1))) := by
  refine ⟨rfl, rfl, rfl, ?_, ?_⟩
  · unfold addWorker
    simp
  · unfold addWorker
    exact List.getLast?_concat _

/-- C7: updating a worker status or an attendance presence through an id
that matches no record leaves the store state entirely unchanged; both
operations are total functions and signal nothing. -/
theorem missing_ref_noop (s : StoreState) (wid aid : String)
    (st pr : LabourStatus)
    (hw : ∀ w ∈ s.workers, w.id ≠ wid) (ha : ∀ a ∈ s.attendance, a.id ≠ aid) :
    updateWorkerStatus wid st s = s ∧ updateAttendancePresence aid pr s = s := by
  constructor
  · unfold updateWorkerStatus
    rw [updateFirst_of_not_mem]
    · intro w hwmem
      simpa using hw w hwmem
  · unfold updateAttendancePresence
    rw [updateFirst_of_not_mem]
    · intro a hamem
      simpa using ha a hamem

/-- C7 witness: the no-op equations at the seed state with an id present in
no collection. -/
theorem missing_ref_noop_witness :
    updateWorkerStatus "nonexistent-id" LabourStatus.present
        (seedState defaultDates) = seedState defaultDates
    ∧ updateAttendancePresence "nonexistent-id" LabourStatus.present
        (seedState defaultDates) = seedState defaultDates :=
  missing_ref_noop (seedState defaultDates) "nonexistent-id" "nonexistent-id"
    LabourStatus.present LabourStatus.present (by decide) (by decide)

/-- A worker input used to exercise the id-synthesis path. -/
def newWorkerInput : WorkerInput :=
  { name := "New Mason", trade := "Mason", dailyRate := 3000,
    status := .present, phone := none, contractorId := "c1" }

/-- C5 counterexample: the store sets the cursor unconditionally, so the
reachable state produced by setSelectedContractor with the unmatched id
"zz" has a non-null cursor equal to no contractor id. -/
theorem selection_invariant_counterexample :
    Reachable freshId defaultDates danglingSelState
    ∧ danglingSelState.selectedContractorId ≠ none
    ∧ ∀ c ∈ danglingSelState.contractors,
        danglingSelState.selectedContractorId ≠ some c.id := by
  refine ⟨⟨[Op.setSelectedContractor (some "zz")], rfl⟩, ?_, ?_⟩ <;> decide

/-- A mutation whose setSelectedContractor argument, if any, is null or an
existing contractor id. -/
def GoodSelArg (d : SeedDates) (op : Op) : Prop :=
  ∀ id, op = Op.setSelectedContractor id →
    id = none ∨ ∃ c ∈ initialContractors d, id = some c.id

theorem selInv_runOps (gen : Nat → String) (d : SeedDates) (s : StoreState)
    (ops : List Op) (hc : s.contractors = initialContractors d)
    (hI : s.selectedContractorId = none
      ∨ ∃ c ∈ s.contractors, s.selectedContractorId = some c.id)
    (hgood : ∀ op ∈ ops, GoodSelArg d op) :
    (runOps gen s ops).selectedContractorId = none
    ∨ ∃ c ∈ (runOps gen s ops).contractors,
        (runOps gen s ops).selectedContractorId = some c.id := by
  induction ops generalizing s with
  | nil => exact hI
  | cons op ops ih =>
      refine ih (applyOp gen s op) ?_ ?_
        (fun op2 hop2 => hgood op2 (List.mem_cons_of_mem _ hop2))
      · rw [contractors_applyOp]
        exact hc
      · cases op with
        | setSelectedContractor id =>
            rcases hgood _ (List.mem_cons_self _ _) id rfl with h | ⟨c, hc2, hid⟩
            · left
              simp [applyOp, setSelectedContractor, h]
            · right
              refine ⟨c, ?_, ?_⟩
              · rw [contractors_applyOp, hc]
                exact hc2
              · simp [applyOp, setSelectedContractor, hid]
        | addAttendance input => exact hI
        | updateAttendancePresence id pr => exact hI
        | addPayment input => exact hI
        | updateWorkerStatus id st => exact hI
        | addWorker w => exact hI

/-- C5 (amended): the invariant that selectedContractorId is null or an
existing contractor id holds in every state reachable through mutation
sequences whose setSelectedContractor arguments are null or existing
contractor ids; unrestricted setSelectedContractor breaks it. -/
theorem selection_invariant_amended (gen : Nat → String) (d : SeedDates)
    (ops : List Op) (hgood : ∀ op ∈ ops, GoodSelArg d op) :
    (runOps gen (seedState d) ops).selectedContractorId = none
    ∨ ∃ c ∈ (runOps gen (seedState d) ops).contractors,
        (runOps gen (seedState d) ops).selectedContractorId = some c.id := by
  refine selInv_runOps gen d (seedState d) ops rfl ?_ hgood
  right
  exact ⟨contractorOne d, List.mem_cons_self _ _, rfl⟩

/-- C5 witness: the amended invariant after selecting the second seed
contractor. -/
theorem selection_invariant_witness :
    (runOps freshId (seedState defaultDates)
        [Op.setSelectedContractor (some "c2")]).selectedContractorId = none
    ∨ ∃ c ∈ (runOps freshId (seedState defaultDates)
        [Op.setSelectedContractor (some "c2")]).contractors,
        (runOps freshId (seedState defaultDates)
            [Op.setSelectedContractor (some "c2")]).selectedContractorId
          = some c.id := by
  refine selection_invariant_amended freshId defaultDates
    [Op.setSelectedContractor (some "c2")] ?_
  intro op hop
  rw [List.mem_singleton] at hop
  subst hop
  intro id hid
  cases hid
  right
  exact ⟨contractorTwo defaultDates, List.mem_cons_of_mem _ (List.mem_cons_self _ _), rfl⟩

/-- C1: in every reachable state with a resolved contractor and strictly
positive daysRemaining, the budget-exposure flag is emitted iff
(dailySpend × 6) × (daysRemaining / 6) exceeds 40 percent of the budget;
no flag when no contractor resolves or daysRemaining is non-positive. -/
theorem budget_flag_correct (gen : Nat → String) (d : SeedDates)
    (s : StoreState) (days : ℤ) (hre : Reachable gen d s) :
    (∀ c, selectedContractor s = some c → 0 < days →
      (budgetMsg ∈ keyRisks s days ↔
        dailySpend s * 6 * ((days : ℚ) / 6) > c.budget * (2 / 5)))
    ∧ (selectedContractor s = none → budgetMsg ∉ keyRisks s days)
    ∧ (days ≤ 0 → budgetMsg ∉ keyRisks s days) := by
  refine ⟨?_, ?_, ?_⟩
  · intro c hsel hd
    rw [mem_keyRisks]
    constructor
    · rintro (⟨h1, h2⟩ | ⟨c2, hc2, hbz, hd2, hineq, hx⟩ | ⟨h1, h2⟩)
      · exact absurd h2.symm (shortCrewMsg_ne_budgetMsg _)
      · rw [hsel, Option.some.injEq] at hc2
        rw [hc2]
        exact hineq
      · exact absurd h2 budgetMsg_ne_attendanceMsg
    · intro hineq
      refine Or.inr (Or.inl ⟨c, hsel, ?_, hd, hineq, rfl⟩)
      intro h0
      have hb := budget_of_reachable gen d s hre c hsel
      have hbpos : (0 : ℚ) < c.budget * (2 / 5) := by
        rcases hb with h | h <;> rw [h] <;> norm_num
      have hzero : dailySpend s * 6 * ((days : ℚ) / 6) = 0 := by
        rw [h0, zero_mul]
      rw [hzero] at hineq
      exact absurd hineq (not_lt.mpr hbpos.le)
  · intro hsel hmem
    rw [mem_keyRisks] at hmem
    rcases hmem with ⟨h1, h2⟩ | ⟨c2, hc2, hrest⟩ | ⟨h1, h2⟩
    · exact shortCrewMsg_ne_budgetMsg _ h2.symm
    · rw [hsel] at hc2
      exact absurd hc2 (by simp)
    · exact budgetMsg_ne_attendanceMsg h2
  · intro hd hmem
    rw [mem_keyRisks] at hmem
    rcases hmem with ⟨h1, h2⟩ | ⟨c2, hc2, hbz, hd2, hrest⟩ | ⟨h1, h2⟩
    · exact shortCrewMsg_ne_budgetMsg _ h2.symm
    · omega
    · exact budgetMsg_ne_attendanceMsg h2

/-- C1 witness: the flag characterization at the seed state with 30 days
remaining. -/
theorem budget_flag_witness :
    budgetMsg ∈ keyRisks (seedState defaultDates) 30 ↔
      dailySpend (seedState defaultDates) * 6 * (((30 : ℤ) : ℚ) / 6) >
        (contractorOne defaultDates).budget * (2 / 5) :=
  (budget_flag_correct freshId defaultDates (seedState defaultDates) 30
    ⟨[], rfl⟩).1 (contractorOne defaultDates) (by decide) (by decide)

/-- C8: the short-crew flag (whose message names the number of crew members
on leave) is emitted iff at least two crew members have status leave; with
exactly one member on leave no short-crew message of any count is emitted. -/
theorem short_crew_flag (s : StoreState) (days : ℤ) :
    (shortCrewMsg (leaveHeads s).length ∈ keyRisks s days
        ↔ 2 ≤ (leaveHeads s).length)
    ∧ ((leaveHeads s).length = 1 →
        ∀ n, shortCrewMsg n ∉ keyRisks s days) := by
  constructor
  · rw [mem_keyRisks]
    constructor
    · rintro (⟨h1, h2⟩ | ⟨c, hc, hbz, hd, hineq, hx⟩ | ⟨h1, hx⟩)
      · exact h1
      · exact absurd hx (shortCrewMsg_ne_budgetMsg _)
      · exact absurd hx (shortCrewMsg_ne_attendanceMsg _)
    · intro h
      exact Or.inl ⟨h, rfl⟩
  · intro h1 n hmem
    rw [mem_keyRisks] at hmem
    rcases hmem with ⟨h2, hx⟩ | ⟨c, hc, hbz, hd, hineq, hx⟩ | ⟨h2, hx⟩
    · omega
    · exact shortCrewMsg_ne_budgetMsg n hx
    · exact shortCrewMsg_ne_attendanceMsg n hx

/-- C8 witness: the short-crew flag is emitted in the state whose selected
crew has exactly two members on leave. -/
theorem short_crew_flag_witness :
    shortCrewMsg (leaveHeads twoLeaveState).length ∈ keyRisks twoLeaveState 30 :=
  (short_crew_flag twoLeaveState 30).1.mpr (by decide)

/-- C9: with an injective id generator avoiding the seed ids (the contract
assumed of crypto.randomUUID), every reachable state has pairwise distinct
ids across all four collections, so every synthesized id differs from all
previously issued ones. -/
theorem id_uniqueness (gen : Nat → String) (d : SeedDates) (s : StoreState)
    (hinj : Function.Injective gen) (hfresh : ∀ n, gen n ∉ seedIds)
    (hre : Reachable gen d s) : (allIds s).Nodup := by
  obtain ⟨ops, rfl⟩ := hre
  exact (idInv_runOps gen (seedState d) ops hinj hfresh (idInv_seedState gen d)).1

/-- C9 witness: distinct ids after adding a worker, an attendance record and
a payment to the seed state. -/
theorem id_uniqueness_witness :
    (allIds (runOps freshId (seedState defaultDates)
        [Op.addWorker newWorkerInput])).Nodup :=
  id_uniqueness freshId defaultDates _ freshId_injective freshId_not_seed
    ⟨[Op.addWorker newWorkerInput], rfl⟩

/-- C10: in every reachable state with a non-empty crew the crew-health
divisor is non-zero: the fallback divisor is the crew size, and a resolved
contractor is one of the two seed contractors, whose targets are 12 and 8. -/
theorem division_safe (gen : Nat → String) (d : SeedDates) (s : StoreState)
    (hre : Reachable gen d s) (hcrew : crew s ≠ []) :
    targetCrew s ≠ 0
    ∧ ∀ c, selectedContractor s = some c →
        (c.crewSizeTarget = 12 ∨ c.crewSizeTarget = 8) := by
  constructor
  · cases hsel : selectedContractor s with
    | none =>
        simp only [targetCrew, hsel]
        have hlen : (crew s).length ≠ 0 := by
          simpa [List.length_eq_zero] using hcrew
        exact_mod_cast Nat.cast_ne_zero.mpr hlen
    | some c =>
        simp only [targetCrew, hsel]
        rcases crewSizeTarget_of_reachable gen d s hre c hsel with h | h <;>
          rw [h] <;> norm_num
  · intro c hsel
    exact crewSizeTarget_of_reachable gen d s hre c hsel

/-- C10 witness: the divisor at the seed state. -/
theorem division_safe_witness : targetCrew (seedState defaultDates) ≠ 0 :=
  (division_safe freshId defaultDates (seedState defaultDates) ⟨[], rfl⟩
    (by decide)).1

end Dashboard
